import Mathlib

/-!
Verification of the matchmaking backend (`src/main.py`, `src/schemas.py`).

The backend is a FastAPI application over a MongoDB-style document store.
We shallowly embed the collections (`userauth`, `profile`, `like`, `match`,
`message`) as Lean lists in insertion order, and each HTTP handler (after
token resolution by `require_auth`) as a pure function from a database
state and the resolved caller to a pair of the new database state and an
`Except`-result.  MongoDB ObjectIds are modelled as natural numbers; the
string form `str(user["_id"])` stored inside `profile`, `like`, `match`
and `message` documents is modelled by the same number, which is faithful
because `str` on ObjectIds is injective.

Modelled from the spec: the document store collaborator (`database.py`,
which is imported by `main.py` but is not part of the two source files)
exposes `create_document` (insert) plus the pymongo collection operations
`find_one` / `find` / `update_one` / `delete_many` / `delete_one`.  Per
spec section 6 it is "a document store supporting find-one /
find-many-with-predicate / insert / update-by-id /
delete-by-predicate-or-id / count / distinct".  We model insert as
appending to the list (ids drawn from a monotone counter `nextId`),
`find_one` as `List.find?` (first document in natural = insertion order),
`find` as `List.filter`, `delete_many` as `List.filter` with the negated
predicate, and `delete_one` as erasing the first matching document.
-/

/-- A MongoDB ObjectId, modelled as a natural number. -/
abbrev OId := Nat

/-- The HTTP error kinds raised by the handlers (spec section 7 taxonomy;
`InvalidTarget` is the 400 "Cannot like yourself" of `like_user`,
`BadRequest` the 400 "Invalid user id" of the admin handlers). -/
inductive ApiError where
  | Unauthorized
  | PaymentRequired
  | InvalidTarget
  | BadRequest
  | Forbidden
  | NotFound
deriving DecidableEq

/-- A `userauth` document (schemas.py `Userauth`), together with its
Mongo `_id`.  The Stripe customer/session fields play no role in any
claim and are omitted. -/
structure Userauth where
  id : OId
  email : String
  paid : Bool
  verified : Bool
  token : String
deriving DecidableEq

/-- A calendar date `{year, month, day}`.  The source stores `birth_date`
as an ISO `YYYY-MM-DD` string and compares such strings with Mongo's
`$lte` / `$gte` (lexicographic on strings), which for zero-padded
four-digit ISO dates coincides with the lexicographic order on
`(year, month, day)` modelled by `dateLe` below. -/
structure SDate where
  year : Int
  month : Nat
  day : Nat
deriving DecidableEq

/-- Lexicographic order on dates: the meaning of Mongo `$lte` between the
stored ISO `birth_date` strings. -/
def dateLe (a b : SDate) : Bool :=
  if a.year = b.year then
    if a.month = b.month then decide (a.day ≤ b.day)
    else decide (a.month < b.month)
  else decide (a.year < b.year)

/-- Strict lexicographic order on dates. -/
def dateLt (a b : SDate) : Bool :=
  if a.year = b.year then
    if a.month = b.month then decide (a.day < b.day)
    else decide (a.month < b.month)
  else decide (a.year < b.year)

/-- The `Profile` request body (schemas.py `Profile`).  We keep
`userauth_id` and every field the `search` handler filters on or
projects; the remaining free-form fields (hobbies, family, health,
languages, social links, ...) are carried by no claim and are replaced
wholesale on update exactly like the ones kept, so they are omitted. -/
structure Profile where
  userauth_id : OId
  full_name : String
  birth_date : SDate
  city : Option String
  religion : String
  religion_level : String
  occupation : Option String
  income_range : Option String
  education_level : Option String
  diet : Option String
  photo_url : Option String
deriving DecidableEq

/-- A stored `profile` document: the payload plus its Mongo `_id`. -/
structure StoredProfile where
  sid : OId
  data : Profile
deriving DecidableEq

/-- A `like` document (schemas.py `Like`); its own `_id` is never read by
any handler and is omitted. -/
structure LikeEdge where
  from_userauth_id : OId
  to_userauth_id : OId
deriving DecidableEq

/-- A `match` document (schemas.py `Match`) with its Mongo `_id`, which
the chat handlers look matches up by. -/
structure MatchEdge where
  id : OId
  userauth_a : OId
  userauth_b : OId
deriving DecidableEq

/-- A `message` document (schemas.py `Message`); its own `_id` is never
read back.  `created_at` is assigned inside `database.py` and is monotone
in insertion order, so list order already carries it. -/
structure Message where
  match_id : OId
  from_userauth_id : OId
  text : String
deriving DecidableEq

/-- The whole database: one list per collection, in insertion order,
plus the ObjectId generator.  The `match` collection is named `matches`
because `match` is a Lean keyword. -/
structure DB where
  userauth : List Userauth
  profile : List StoredProfile
  like : List LikeEdge
  matchColl : List MatchEdge
  message : List Message
  nextId : OId
deriving DecidableEq

/-- `require_auth` (main.py lines 24-30): resolve the query token to a
`userauth` document, else 401. -/
def require_auth (db : DB) (token : Option String) : Except ApiError Userauth :=
  match token with
  | none => Except.error ApiError.Unauthorized
  | some t =>
    match db.userauth.find? (fun u => u.token == t) with
    | none => Except.error ApiError.Unauthorized
    | some u => Except.ok u

/-- There is a `userauth` document with this id. -/
def identityExists (db : DB) (i : OId) : Bool :=
  db.userauth.any (fun u => u.id == i)

/-- A `like` document from `x` to `y` exists. -/
def hasLike (db : DB) (x y : OId) : Bool :=
  db.like.any (fun l => l.from_userauth_id == x && l.to_userauth_id == y)

/-- The `$or` predicate of `like_user`'s match-existence query: the match
edge joins `x` and `y` in either orientation. -/
def pairMatches (m : MatchEdge) (x y : OId) : Bool :=
  (m.userauth_a == x && m.userauth_b == y) || (m.userauth_a == y && m.userauth_b == x)

/-- Number of `match` documents joining `x` and `y` (either orientation). -/
def matchCount (db : DB) (x y : OId) : Nat :=
  (db.matchColl.filter (fun m => pairMatches m x y)).length

/-- The tail of `like_user` (main.py lines 207-219), entered on the state
`db1` in which the fresh Like edge has already been inserted: the
`find_one` for the reverse edge, then on a mutual pair the `find_one`
for an existing `match` document in either orientation and, when none
exists, the `create_document` of a new one. -/
def likeMutualCheck (db1 : DB) (user : Userauth) (to_userauth_id : OId) :
    DB × Except ApiError String :=
  match db1.like.find? (fun l => l.from_userauth_id == to_userauth_id && l.to_userauth_id == user.id) with
  | some _ =>
    match db1.matchColl.find? (fun m =>
        (m.userauth_a == user.id && m.userauth_b == to_userauth_id) ||
        (m.userauth_a == to_userauth_id && m.userauth_b == user.id)) with
    | some _ => (db1, Except.ok "match")
    | none =>
      ({ db1 with
          matchColl := db1.matchColl ++ [{ id := db1.nextId, userauth_a := user.id, userauth_b := to_userauth_id }],
          nextId := db1.nextId + 1 },
        Except.ok "match")
  | none => (db1, Except.ok "liked")

/-- The store after `like_user`'s unconditional
`create_document("like", ...)` (main.py line 206). -/
def likeInsertDB (db : DB) (user : Userauth) (to_userauth_id : OId) : DB :=
  { db with like := db.like ++ [{ from_userauth_id := user.id, to_userauth_id := to_userauth_id }] }

/-- `like_user` (main.py lines 202-219), after `require_auth` has
resolved `user`.  Rejects self-likes with 400, unconditionally inserts
the Like edge (`create_document`), then runs the mutual check on the
resulting state. -/
def like_user (db : DB) (user : Userauth) (to_userauth_id : OId) :
    DB × Except ApiError String :=
  if user.id = to_userauth_id then
    (db, Except.error ApiError.InvalidTarget)
  else
    likeMutualCheck (likeInsertDB db user to_userauth_id) user to_userauth_id

/-- `get_matches` (main.py lines 221-226): all match documents where the
caller is either participant. -/
def get_matches (db : DB) (user : Userauth) : List MatchEdge :=
  db.matchColl.filter (fun m => m.userauth_a == user.id || m.userauth_b == user.id)

/-- `send_message` (main.py lines 233-244): look the match up by `_id`
(404 if absent, which also covers a malformed ObjectId string), 403 if
the caller is neither participant, else append the message. -/
def send_message (db : DB) (user : Userauth) (match_id : OId) (text : String) :
    DB × Except ApiError String :=
  match db.matchColl.find? (fun m => m.id == match_id) with
  | none => (db, Except.error ApiError.NotFound)
  | some m =>
    if !(user.id == m.userauth_a || user.id == m.userauth_b) then
      (db, Except.error ApiError.Forbidden)
    else
      ({ db with message := db.message ++ [{ match_id := match_id, from_userauth_id := user.id, text := text }] },
        Except.ok "sent")

/-- `get_messages` (main.py lines 246-259): same existence and
participant checks as `send_message`, then the match's messages.  The
source sorts by `created_at` ascending; that field is assigned at insert
time (in `database.py`) and is monotone in insertion order, so the sorted
result is the filtered list in list order. -/
def get_messages (db : DB) (user : Userauth) (match_id : OId) :
    Except ApiError (List Message) :=
  match db.matchColl.find? (fun m => m.id == match_id) with
  | none => Except.error ApiError.NotFound
  | some m =>
    if !(user.id == m.userauth_a || user.id == m.userauth_b) then
      Except.error ApiError.Forbidden
    else
      Except.ok (db.message.filter (fun ms => ms.match_id == match_id))

/-- Replace the first element satisfying `p` by `v` (pymongo
`update_one`: at most one document is updated, the first match in
natural order). -/
def setFirst (p : α → Bool) (v : α) : List α → List α
  | [] => []
  | x :: xs => if p x then v :: xs else x :: setFirst p v xs

/-- `create_or_update_profile` (main.py lines 101-113): 402 unless the
caller has paid; the body's `userauth_id` is overwritten with the
caller's own id; then update the existing profile document (found by
`userauth_id`, updated by its `_id`) or insert a new one. -/
def create_or_update_profile (db : DB) (user : Userauth) (pr : Profile) :
    DB × Except ApiError String :=
  if user.paid = false then
    (db, Except.error ApiError.PaymentRequired)
  else
    match db.profile.find? (fun e => e.data.userauth_id == user.id) with
    | some e =>
      ({ db with
          profile := setFirst (fun x => x.sid == e.sid)
            { sid := e.sid, data := { pr with userauth_id := user.id } } db.profile },
        Except.ok "updated")
    | none =>
      ({ db with
          profile := db.profile ++ [{ sid := db.nextId, data := { pr with userauth_id := user.id } }],
          nextId := db.nextId + 1 },
        Except.ok "created")

/-- The store state after the five deletions of `admin_delete_user`
(main.py lines 286-299, run after `require_admin` and only for a
well-formed ObjectId): `delete_many` the identity's profiles, its likes
in either direction, its matches with either participant and its sent
messages, then `delete_one` the `userauth` document itself. -/
def cascadeDeleted (db : DB) (uid : OId) : DB :=
  { db with
      profile := db.profile.filter (fun p => !(p.data.userauth_id == uid)),
      like := db.like.filter (fun l => !(l.from_userauth_id == uid || l.to_userauth_id == uid)),
      matchColl := db.matchColl.filter (fun m => !(m.userauth_a == uid || m.userauth_b == uid)),
      message := db.message.filter (fun ms => !(ms.from_userauth_id == uid)),
      userauth := db.userauth.eraseP (fun u => u.id == uid) }

/-- The branch structure of `admin_delete_user`: the four `delete_many`
calls and the final `delete_one` on `userauth` all run first (the state
is `cascadeDeleted` in both branches), and `deleted_count == 0` — i.e.
no `userauth` document carried the id — selects the 404 response. -/
def admin_delete_user (db : DB) (uid : OId) : DB × Except ApiError String :=
  if db.userauth.any (fun u => u.id == uid) then
    (cascadeDeleted db uid, Except.ok "deleted")
  else
    (cascadeDeleted db uid, Except.error ApiError.NotFound)

/-- The age-cutoff birth date of `search_profiles` (main.py lines
156-165): `date(today.year - max(age, 0), today.month, today.day)`. -/
def cutoffDate (today : SDate) (age : Int) : SDate :=
  { year := today.year - max age 0, month := today.month, day := today.day }

/-- The `birth_date` range filter of `search_profiles`: `$lte` the
`age_min` cutoff and `$gte` the `age_max` cutoff, each only when the
corresponding query parameter is present. -/
def ageFilterPass (today : SDate) (age_min age_max : Option Int) (birth : SDate) : Bool :=
  (match age_min with
    | none => true
    | some a => dateLe birth (cutoffDate today a)) &&
  (match age_max with
    | none => true
    | some a => dateLe (cutoffDate today a) birth)

/-- The query parameters of `search_profiles` that shape the Mongo
`match` document (main.py lines 125-167). -/
structure SearchQuery where
  age_min : Option Int
  age_max : Option Int
  city : Option String
  religion : Option String
  religion_level : Option String
  education_level : Option String
  occupation : Option String
  income_range : Option String
  diet : Option String
deriving DecidableEq

/-- Mongo equality filter on an optional field: absent parameter matches
everything, a present parameter matches only that stored value. -/
def eqFilterPass (f : Option String) (v : Option String) : Bool :=
  match f with
  | none => true
  | some s => v == some s

/-- The `city` filter: `{"$regex": "^city", "$options": "i"}`, a
case-insensitive anchored pattern, i.e. the stored city starts with the
query string up to case. -/
def cityFilterPass (f : Option String) (v : Option String) : Bool :=
  match f with
  | none => true
  | some s =>
    match v with
    | none => false
    | some c => s.toLower.isPrefixOf c.toLower

/-- The whole profile-matching predicate of `search_profiles`: the Mongo
`match` document built from the query parameters, applied to one stored
profile. -/
def searchFilterPass (q : SearchQuery) (today : SDate) (p : Profile) : Bool :=
  cityFilterPass q.city p.city &&
  eqFilterPass q.religion (some p.religion) &&
  eqFilterPass q.religion_level (some p.religion_level) &&
  eqFilterPass q.education_level p.education_level &&
  eqFilterPass q.occupation p.occupation &&
  eqFilterPass q.income_range p.income_range &&
  eqFilterPass q.diet p.diet &&
  ageFilterPass today q.age_min q.age_max p.birth_date

/-- The candidate set of `search_profiles`: `db["profile"].find(match)`,
before the verified-only post-filter and card projection. -/
def searchCandidates (db : DB) (q : SearchQuery) (today : SDate) : List StoredProfile :=
  db.profile.filter (fun sp => searchFilterPass q today sp.data)

/-- A query with only the age bounds set. -/
def ageOnlyQuery (amin amax : Option Int) : SearchQuery :=
  { age_min := amin, age_max := amax, city := none, religion := none,
    religion_level := none, education_level := none, occupation := none,
    income_range := none, diet := none }

/-- Run a sequence of `like_user` calls (each one at a time) from a
starting state, threading the database through and discarding the
responses. -/
def runLikes (db : DB) (ops : List (Userauth × OId)) : DB :=
  ops.foldl (fun d op => (like_user d op.1 op.2).1) db

/-! ## Basic facts about the like handler -/

/-- `find_one` returns nothing exactly when no document satisfies the
predicate, i.e. when `any` is `false`. -/
theorem find?_none_iff_any_false {α : Type} (p : α → Bool) (l : List α) :
    l.find? p = none ↔ l.any p = false := by
  simp

/-- The mutual-check phase never touches the `userauth`, `profile`,
`like` or `message` collections. -/
theorem likeMutualCheck_state (d : DB) (u : Userauth) (t : OId) :
    (likeMutualCheck d u t).1.like = d.like
  ∧ (likeMutualCheck d u t).1.userauth = d.userauth
  ∧ (likeMutualCheck d u t).1.profile = d.profile
  ∧ (likeMutualCheck d u t).1.message = d.message := by
  unfold likeMutualCheck
  cases hf : d.like.find? (fun l => l.from_userauth_id == t && l.to_userauth_id == u.id) with
  | none => exact ⟨rfl, rfl, rfl, rfl⟩
  | some e =>
    cases hm : d.matchColl.find? (fun m =>
        (m.userauth_a == u.id && m.userauth_b == t) ||
        (m.userauth_a == t && m.userauth_b == u.id)) with
    | none => exact ⟨rfl, rfl, rfl, rfl⟩
    | some e2 => exact ⟨rfl, rfl, rfl, rfl⟩

/-- The mutual-check phase answers 200 with status `match` or `liked`,
never an error. -/
theorem likeMutualCheck_ok (d : DB) (u : Userauth) (t : OId) :
    (likeMutualCheck d u t).2 = Except.ok "match"
  ∨ (likeMutualCheck d u t).2 = Except.ok "liked" := by
  unfold likeMutualCheck
  cases hf : d.like.find? (fun l => l.from_userauth_id == t && l.to_userauth_id == u.id) with
  | none => right; rfl
  | some e =>
    cases hm : d.matchColl.find? (fun m =>
        (m.userauth_a == u.id && m.userauth_b == t) ||
        (m.userauth_a == t && m.userauth_b == u.id)) with
    | none => left; rfl
    | some e2 => left; rfl

/-- The mutual-check phase answers `match` exactly when a reverse Like
edge is present in its input state, and `liked` exactly otherwise. -/
theorem likeMutualCheck_status (d : DB) (u : Userauth) (t : OId) :
    ((likeMutualCheck d u t).2 = Except.ok "match"
       ↔ d.like.any (fun l => l.from_userauth_id == t && l.to_userauth_id == u.id) = true)
  ∧ ((likeMutualCheck d u t).2 = Except.ok "liked"
       ↔ d.like.any (fun l => l.from_userauth_id == t && l.to_userauth_id == u.id) = false) := by
  unfold likeMutualCheck
  cases hf : d.like.find? (fun l => l.from_userauth_id == t && l.to_userauth_id == u.id) with
  | none =>
    have hany : d.like.any (fun l => l.from_userauth_id == t && l.to_userauth_id == u.id) = false :=
      (find?_none_iff_any_false _ _).1 hf
    simp [hany]
  | some e =>
    have hmem := List.mem_of_find?_eq_some hf
    have hpe := List.find?_some hf
    have hany : d.like.any (fun l => l.from_userauth_id == t && l.to_userauth_id == u.id) = true :=
      List.any_eq_true.2 ⟨e, hmem, hpe⟩
    cases hm : d.matchColl.find? (fun m =>
        (m.userauth_a == u.id && m.userauth_b == t) ||
        (m.userauth_a == t && m.userauth_b == u.id)) with
    | none => simp [hany]
    | some e2 => simp [hany]

/-- After the fresh edge requester→target is appended, the reverse-edge
query sees exactly the pre-call reverse edges: the fresh edge cannot be
its own reverse because requester ≠ target. -/
theorem likeInsert_any_reverse (db : DB) (u : Userauth) (t : OId) (h : u.id ≠ t) :
    (likeInsertDB db u t).like.any
      (fun l => l.from_userauth_id == t && l.to_userauth_id == u.id) = hasLike db t u.id := by
  have hbeq : (u.id == t) = false := by simp [h]
  simp [likeInsertDB, hasLike, hbeq]

/-- The self-like guard of `like_user`: the call returns the store
unchanged together with the 400 error. -/
theorem like_user_self_eq (db : DB) (u : Userauth) :
    like_user db u u.id = (db, Except.error ApiError.InvalidTarget) := by
  simp [like_user]

/-- Every non-self like call succeeds with some status string. -/
theorem like_user_ok_of_ne (db : DB) (u : Userauth) (t : OId) (h : u.id ≠ t) :
    ∃ s, (like_user db u t).2 = Except.ok s := by
  unfold like_user
  rw [if_neg h]
  rcases likeMutualCheck_ok (likeInsertDB db u t) u t with h1 | h1
  · exact ⟨"match", h1⟩
  · exact ⟨"liked", h1⟩

/-- C5: `like_user` with `target = requester` always fails with
`InvalidTarget` (HTTP 400 "Cannot like yourself") and returns the store
unchanged, so the failing call inserts no Like edge and no Match edge. -/
theorem like_self_invalid_target (db : DB) (u : Userauth) :
    like_user db u u.id = (db, Except.error ApiError.InvalidTarget) :=
  like_user_self_eq db u

/-- An authenticated identity that has not paid, plus a paid one. -/
def c1User : Userauth :=
  { id := 0, email := "u0@example.com", paid := false, verified := false, token := "tok0" }

/-- A store holding the unpaid `c1User` and a paid identity 1. -/
def c1Db : DB :=
  { userauth := [c1User,
      { id := 1, email := "u1@example.com", paid := true, verified := false, token := "tok1" }],
    profile := [], like := [], matchColl := [], message := [], nextId := 2 }

/-- C1: counterexample.  The claim says a requester whose identity has
`paid = false` fails with `PaymentRequired` and inserts no Like edge; in
the code `like_user` never consults `paid`, so this unpaid requester
succeeds with status `liked` and the Like edge is inserted. -/
theorem like_unpaid_succeeds :
    c1User.paid = false
  ∧ (like_user c1Db c1User 1).2 = Except.ok "liked"
  ∧ (like_user c1Db c1User 1).1.like = [{ from_userauth_id := 0, to_userauth_id := 1 }] :=
  ⟨rfl, rfl, rfl⟩

/-- C1 amended: `like_user` performs no payment check.  For every store
and every authenticated requester, whatever its `paid` flag, the call
never fails with `PaymentRequired`, and whenever the target differs from
the requester it succeeds (with status `liked` or `match`). -/
theorem like_has_no_payment_gate (db : DB) (u : Userauth) (t : OId) :
    (like_user db u t).2 ≠ Except.error ApiError.PaymentRequired
  ∧ (u.id ≠ t → ∃ s, (like_user db u t).2 = Except.ok s) := by
  constructor
  · by_cases h : u.id = t
    · subst h
      simp [like_user]
    · unfold like_user
      rw [if_neg h]
      rcases likeMutualCheck_ok (likeInsertDB db u t) u t with h1 | h1 <;> simp [h1]
  · intro h
    exact like_user_ok_of_ne db u t h

/-- Witness for C1's amended theorem at the unpaid requester of the
counterexample store. -/
theorem like_has_no_payment_gate_witness :
    (like_user c1Db c1User 1).2 ≠ Except.error ApiError.PaymentRequired
  ∧ ∃ s, (like_user c1Db c1User 1).2 = Except.ok s :=
  ⟨(like_has_no_payment_gate c1Db c1User 1).1,
    (like_has_no_payment_gate c1Db c1User 1).2 (by decide)⟩

/-- The sole identity of the C3 counterexample store. -/
def c3User : Userauth :=
  { id := 0, email := "only@example.com", paid := true, verified := false, token := "tokA" }

/-- A store whose only identity is `c3User`; id 7 names nobody. -/
def c3Db : DB :=
  { userauth := [c3User], profile := [], like := [], matchColl := [], message := [], nextId := 1 }

/-- C3: counterexample.  `like_user` never looks the target up in the
`userauth` collection: liking the nonexistent id 7 succeeds and inserts
a Like edge whose target has no stored identity record, before and after
the call. -/
theorem like_dangling_target :
    identityExists c3Db 7 = false
  ∧ (like_user c3Db c3User 7).2 = Except.ok "liked"
  ∧ (({ from_userauth_id := 0, to_userauth_id := 7 } : LikeEdge)
       ∈ (like_user c3Db c3User 7).1.like)
  ∧ identityExists (like_user c3Db c3User 7).1 7 = false := by
  refine ⟨rfl, rfl, ?_, rfl⟩
  decide

/-- C3 amended: `like_user` checks only that the target differs from the
requester, never that a `userauth` document with the target id exists;
every non-self call succeeds and appends the edge requester→target
exactly as requested, so a Like edge may reference an identity id with
no stored identity record. -/
theorem like_inserts_edge_unconditionally (db : DB) (u : Userauth) (t : OId)
    (h : u.id ≠ t) :
    (like_user db u t).1.like
      = db.like ++ [{ from_userauth_id := u.id, to_userauth_id := t }]
  ∧ ∃ s, (like_user db u t).2 = Except.ok s := by
  constructor
  · unfold like_user
    rw [if_neg h]
    exact (likeMutualCheck_state (likeInsertDB db u t) u t).1
  · exact like_user_ok_of_ne db u t h

/-- Witness for C3's amended theorem on the dangling-target store. -/
theorem like_inserts_edge_unconditionally_witness :
    (like_user c3Db c3User 7).1.like
      = c3Db.like ++ [{ from_userauth_id := 0, to_userauth_id := 7 }]
  ∧ ∃ s, (like_user c3Db c3User 7).2 = Except.ok s :=
  like_inserts_edge_unconditionally c3Db c3User 7 (by decide)

/-- C4: for a target distinct from the requester, `like_user` answers
status `match` exactly when a reverse Like edge target→requester is in
the store when its mutual check runs — equivalently, before the call,
since the call itself only adds the edge requester→target — and answers
status `liked` exactly otherwise. -/
theorem like_status_iff_mutual (db : DB) (u : Userauth) (t : OId) (h : u.id ≠ t) :
    ((like_user db u t).2 = Except.ok "match" ↔ hasLike db t u.id = true)
  ∧ ((like_user db u t).2 = Except.ok "liked" ↔ hasLike db t u.id = false) := by
  have hmc := likeMutualCheck_status (likeInsertDB db u t) u t
  rw [likeInsert_any_reverse db u t h] at hmc
  unfold like_user
  rw [if_neg h]
  exact hmc

/-- Witness for C4 on a store holding the reverse edge 1→0: the like
answers `match`; and on the empty store the same call answers `liked`. -/
theorem like_status_iff_mutual_witness :
    (like_user { c3Db with like := [{ from_userauth_id := 7, to_userauth_id := 0 }] }
        c3User 7).2 = Except.ok "match"
  ∧ (like_user c3Db c3User 7).2 = Except.ok "liked" :=
  ⟨(like_status_iff_mutual
      { c3Db with like := [{ from_userauth_id := 7, to_userauth_id := 0 }] }
      c3User 7 (by decide)).1.2 (by decide),
    (like_status_iff_mutual c3Db c3User 7 (by decide)).2.2 (by decide)⟩

/-! ## Chat access control -/

/-- C6: `send_message` and `get_messages` fail with `NotFound` when no
match document with the given id exists and with `Forbidden` when it
exists but the caller is neither participant — in both failure cases the
store, and in particular the message collection, is returned untouched —
and `send_message` appends the message exactly when both checks pass. -/
theorem chat_access_control (db : DB) (u : Userauth) (mid : OId) (text : String) :
    (db.matchColl.find? (fun m => m.id == mid) = none →
        send_message db u mid text = (db, Except.error ApiError.NotFound)
      ∧ get_messages db u mid = Except.error ApiError.NotFound)
  ∧ (∀ m, db.matchColl.find? (fun m2 => m2.id == mid) = some m →
      u.id ≠ m.userauth_a → u.id ≠ m.userauth_b →
        send_message db u mid text = (db, Except.error ApiError.Forbidden)
      ∧ get_messages db u mid = Except.error ApiError.Forbidden)
  ∧ (∀ m, db.matchColl.find? (fun m2 => m2.id == mid) = some m →
      (u.id = m.userauth_a ∨ u.id = m.userauth_b) →
        send_message db u mid text
          = ({ db with
                message := db.message ++ [{ match_id := mid, from_userauth_id := u.id, text := text }] },
              Except.ok "sent")) := by
  refine ⟨?_, ?_, ?_⟩
  · intro h
    constructor <;> simp [send_message, get_messages, h]
  · intro m hm h1 h2
    have hcond : (u.id == m.userauth_a || u.id == m.userauth_b) = false := by
      simp [h1, h2]
    constructor <;> simp [send_message, get_messages, hm, hcond]
  · intro m hm h12
    have hcond : (u.id == m.userauth_a || u.id == m.userauth_b) = true := by
      rcases h12 with h | h <;> simp [h]
    simp [send_message, hm, hcond]

/-- The match document of the chat witness store. -/
def c6Match : MatchEdge := { id := 5, userauth_a := 0, userauth_b := 1 }

/-- A store holding exactly one match, number 5, joining ids 0 and 1. -/
def c6Db : DB :=
  { userauth := [], profile := [], like := [], matchColl := [c6Match],
    message := [], nextId := 6 }

/-- An identity that participates in no match of `c6Db`. -/
def c6Outsider : Userauth :=
  { id := 2, email := "c@example.com", paid := true, verified := false, token := "tokC" }

/-- Witness for C6: a nonexistent match id yields `NotFound` for both
handlers, the uninvolved identity 2 gets `Forbidden` on match 5, and
participant 0 gets its message appended. -/
theorem chat_access_control_witness :
    (send_message c6Db c6Outsider 9 "hi" = (c6Db, Except.error ApiError.NotFound)
      ∧ get_messages c6Db c6Outsider 9 = Except.error ApiError.NotFound)
  ∧ (send_message c6Db c6Outsider 5 "hi" = (c6Db, Except.error ApiError.Forbidden)
      ∧ get_messages c6Db c6Outsider 5 = Except.error ApiError.Forbidden)
  ∧ send_message c6Db c3User 5 "hi"
      = ({ c6Db with message := [{ match_id := 5, from_userauth_id := 0, text := "hi" }] },
          Except.ok "sent") :=
  ⟨(chat_access_control c6Db c6Outsider 9 "hi").1 (by decide),
   (chat_access_control c6Db c6Outsider 5 "hi").2.1 c6Match (by decide) (by decide) (by decide),
   (chat_access_control c6Db c3User 5 "hi").2.2 c6Match (by decide) (Or.inl (by decide))⟩

/-! ## Admin cascading delete -/

/-- Both branches of `admin_delete_user` return the cascaded store. -/
theorem admin_delete_user_fst (db : DB) (uid : OId) :
    (admin_delete_user db uid).1 = cascadeDeleted db uid := by
  unfold admin_delete_user
  split <;> rfl

/-- Erasing the first element whose key (under `f`) is `k` from a list
with pairwise-distinct keys leaves no element with key `k`, provided it
was the only one — which distinctness guarantees. -/
theorem eraseP_nodup_key {α β : Type} [DecidableEq β] (f : α → β) (k : β) :
    ∀ l : List α, (l.map f).Nodup →
      ∀ x ∈ l.eraseP (fun a => f a == k), f x ≠ k := by
  intro l
  induction l with
  | nil => intro _ x hx; cases hx
  | cons a l ih =>
    intro hnd x hx
    have hnd2 := List.nodup_cons.1 hnd
    by_cases hpa : f a = k
    · rw [List.eraseP_cons_of_pos (by simp [hpa])] at hx
      intro hxk
      exact hnd2.1 (hpa ▸ hxk ▸ List.mem_map_of_mem f hx)
    · rw [List.eraseP_cons_of_neg (by simp [hpa])] at hx
      rcases List.mem_cons.1 hx with rfl | hx2
      · exact hpa
      · exact ih hnd2.2 x hx2

/-- C7: for a well-formed identity id, `admin_delete_user` removes every
profile owned by the identity, every Like edge in which it is source or
target, every Match edge in which it is either participant, every
Message it sent, and the identity record itself; the response is
`NotFound` exactly when no identity record with that id was stored, and
because every conjunct below is unconditional, the cascade deletions are
performed in that failing case too.  The hypothesis is Mongo's
uniqueness of `_id` within the `userauth` collection. -/
theorem admin_delete_user_cascade (db : DB) (uid : OId)
    (hnd : (db.userauth.map (fun u => u.id)).Nodup) :
    (∀ p ∈ (admin_delete_user db uid).1.profile, p.data.userauth_id ≠ uid)
  ∧ (∀ l ∈ (admin_delete_user db uid).1.like,
       l.from_userauth_id ≠ uid ∧ l.to_userauth_id ≠ uid)
  ∧ (∀ m ∈ (admin_delete_user db uid).1.matchColl,
       m.userauth_a ≠ uid ∧ m.userauth_b ≠ uid)
  ∧ (∀ ms ∈ (admin_delete_user db uid).1.message, ms.from_userauth_id ≠ uid)
  ∧ (∀ u ∈ (admin_delete_user db uid).1.userauth, u.id ≠ uid)
  ∧ ((admin_delete_user db uid).2 = Except.error ApiError.NotFound
       ↔ identityExists db uid = false) := by
  rw [admin_delete_user_fst]
  refine ⟨?_, ?_, ?_, ?_, ?_, ?_⟩
  · intro p hp
    have := (List.mem_filter.1 hp).2
    simpa using this
  · intro l hl
    have := (List.mem_filter.1 hl).2
    have h2 := by simpa using this
    exact h2
  · intro m hm
    have := (List.mem_filter.1 hm).2
    have h2 := by simpa using this
    exact h2
  · intro ms hms
    have := (List.mem_filter.1 hms).2
    simpa using this
  · intro u hu
    have hu2 : u ∈ db.userauth.eraseP (fun a => a.id == uid) := hu
    exact eraseP_nodup_key (fun x => x.id) uid db.userauth hnd u hu2
  · by_cases hc : db.userauth.any (fun u => u.id == uid)
    · simp [admin_delete_user, hc, identityExists]
    · simp [admin_delete_user, hc, identityExists]

/-- A Profile payload for the delete witnesses, owned by `uid`. -/
def sampleProfile (uid : OId) : Profile :=
  { userauth_id := uid, full_name := "Sample", birth_date := ⟨1990, 1, 1⟩,
    city := some "Jakarta", religion := "Islam", religion_level := "Moderat",
    occupation := none, income_range := none, education_level := none,
    diet := none, photo_url := none }

/-- A populated store: identities 0 and 1, one profile each, mutual
likes, the match joining them, and a message from 0. -/
def c7Db : DB :=
  { userauth := [c3User,
      { id := 1, email := "b@example.com", paid := true, verified := false, token := "tokB" }],
    profile := [{ sid := 10, data := sampleProfile 0 }, { sid := 11, data := sampleProfile 1 }],
    like := [{ from_userauth_id := 0, to_userauth_id := 1 },
             { from_userauth_id := 1, to_userauth_id := 0 }],
    matchColl := [c6Match],
    message := [{ match_id := 5, from_userauth_id := 0, text := "hi" }],
    nextId := 12 }

/-- Witness for C7 on the populated store: its `userauth` ids are
pairwise distinct and deleting identity 0 does not answer `NotFound`,
because the record exists. -/
theorem admin_delete_user_cascade_witness :
    (admin_delete_user c7Db 0).2 = Except.error ApiError.NotFound
      ↔ identityExists c7Db 0 = false :=
  (admin_delete_user_cascade c7Db 0 (by decide)).2.2.2.2.2

/-- Erasing the first element satisfying `p` does not change the
sublist of elements satisfying `q`, when `p` and `q` are disjoint. -/
theorem filter_eraseP_disjoint {α : Type} (p q : α → Bool)
    (h : ∀ x, p x = true → q x = false) :
    ∀ l : List α, (l.eraseP p).filter q = l.filter q := by
  intro l
  induction l with
  | nil => rfl
  | cons a l ih =>
    by_cases hpa : p a
    · rw [List.eraseP_cons_of_pos hpa, List.filter_cons_of_neg (by simp [h a hpa])]
    · rw [List.eraseP_cons_of_neg hpa]
      by_cases hqa : q a
      · rw [List.filter_cons_of_pos hqa, List.filter_cons_of_pos hqa, ih]
      · rw [List.filter_cons_of_neg hqa, List.filter_cons_of_neg hqa, ih]

/-- C8: deleting identity `A` leaves every other identity `B` intact —
its profile documents and its `userauth` record survive unchanged — and
afterwards `get_matches` for `B` contains no match edge that had `A` as
a participant. -/
theorem admin_delete_user_frame (db : DB) (A B : OId) (hBA : B ≠ A) :
    (admin_delete_user db A).1.profile.filter (fun p => p.data.userauth_id == B)
      = db.profile.filter (fun p => p.data.userauth_id == B)
  ∧ (admin_delete_user db A).1.userauth.filter (fun u => u.id == B)
      = db.userauth.filter (fun u => u.id == B)
  ∧ (∀ uB : Userauth, uB.id = B →
      ∀ m ∈ get_matches (admin_delete_user db A).1 uB,
        m.userauth_a ≠ A ∧ m.userauth_b ≠ A) := by
  rw [admin_delete_user_fst]
  refine ⟨?_, ?_, ?_⟩
  · show ((db.profile.filter _).filter _) = _
    rw [List.filter_filter]
    apply List.filter_congr
    intro x hx
    by_cases hb : x.data.userauth_id = B
    · simp [hb, hBA]
    · simp [hb]
  · exact filter_eraseP_disjoint _ _
      (fun x hx => by
        have hxA : x.id = A := by simpa using hx
        simp only [hxA, beq_eq_false_iff_ne]
        exact fun hh => hBA hh.symm) db.userauth
  · intro uB hB m hm
    have h1 := (List.mem_filter.1 hm).1
    have h2 := (List.mem_filter.1 h1).2
    have h3 : ¬(m.userauth_a = A ∨ m.userauth_b = A) := by simpa using h2
    exact ⟨fun hh => h3 (Or.inl hh), fun hh => h3 (Or.inr hh)⟩

/-- Witness for C8: deleting identity 0 from the populated store leaves
identity 1's profile list and identity record untouched. -/
theorem admin_delete_user_frame_witness :
    (admin_delete_user c7Db 0).1.profile.filter (fun p => p.data.userauth_id == 1)
      = c7Db.profile.filter (fun p => p.data.userauth_id == 1)
  ∧ (admin_delete_user c7Db 0).1.userauth.filter (fun u => u.id == 1)
      = c7Db.userauth.filter (fun u => u.id == 1) :=
  ⟨(admin_delete_user_frame c7Db 0 1 (by decide)).1,
   (admin_delete_user_frame c7Db 0 1 (by decide)).2.1⟩

/-! ## Search age filter -/

/-- `dateLe` is reflexive. -/
theorem dateLe_refl (d : SDate) : dateLe d d = true := by
  simp [dateLe]

/-- A strictly earlier date does not satisfy the `$gte` bound. -/
theorem dateLe_false_of_dateLt (a b : SDate) (h : dateLt a b = true) :
    dateLe b a = false := by
  unfold dateLt at h
  unfold dateLe
  by_cases h1 : a.year = b.year
  · rw [if_pos h1] at h
    rw [if_pos h1.symm]
    by_cases h2 : a.month = b.month
    · rw [if_pos h2] at h
      rw [if_pos h2.symm]
      simp at h ⊢
      omega
    · rw [if_neg h2] at h
      rw [if_neg (fun hh => h2 hh.symm)]
      simp at h ⊢
      omega
  · rw [if_neg h1] at h
    rw [if_neg (fun hh => h1 hh.symm)]
    simp at h ⊢
    omega

/-- Membership in the search candidate set under an age-only query is
membership in the profile collection plus the birth-date range filter. -/
theorem mem_searchCandidates_age (db : DB) (today : SDate)
    (amin amax : Option Int) (sp : StoredProfile) :
    sp ∈ searchCandidates db (ageOnlyQuery amin amax) today
      ↔ sp ∈ db.profile
        ∧ ageFilterPass today amin amax sp.data.birth_date = true := by
  simp [searchCandidates, searchFilterPass, ageOnlyQuery, cityFilterPass,
    eqFilterPass, List.mem_filter]

/-- C9: the age filter of `search_profiles`.  With `age_max = a` set, a
profile born exactly `a` years before today — same month and day, year
reduced by `a` — is in the candidate set, and a profile born on any
strictly earlier date (in particular one day earlier) is excluded.
Symmetrically, with `age_min = a` set, exactly the stored profiles whose
`birth_date` is on or before today minus `a` years pass the filter. -/
theorem search_age_cutoff (db : DB) (today : SDate) (a : Int) (ha : 0 ≤ a)
    (sp : StoredProfile) (hmem : sp ∈ db.profile) :
    (sp.data.birth_date = { year := today.year - a, month := today.month, day := today.day } →
       sp ∈ searchCandidates db (ageOnlyQuery none (some a)) today)
  ∧ (dateLt sp.data.birth_date
        { year := today.year - a, month := today.month, day := today.day } = true →
       sp ∉ searchCandidates db (ageOnlyQuery none (some a)) today)
  ∧ (sp ∈ searchCandidates db (ageOnlyQuery (some a) none) today →
       dateLe sp.data.birth_date
         { year := today.year - a, month := today.month, day := today.day } = true)
  ∧ (dateLe sp.data.birth_date
        { year := today.year - a, month := today.month, day := today.day } = true →
       sp ∈ searchCandidates db (ageOnlyQuery (some a) none) today) := by
  have hcut : cutoffDate today a
      = { year := today.year - a, month := today.month, day := today.day } := by
    simp [cutoffDate, max_eq_left ha]
  refine ⟨?_, ?_, ?_, ?_⟩
  · intro hb
    rw [mem_searchCandidates_age]
    refine ⟨hmem, ?_⟩
    simp only [ageFilterPass, Bool.true_and]
    rw [hcut, ← hb]
    exact dateLe_refl _
  · intro hlt hmemc
    rw [mem_searchCandidates_age] at hmemc
    have hpass := hmemc.2
    simp only [ageFilterPass, Bool.true_and] at hpass
    rw [hcut, dateLe_false_of_dateLt _ _ hlt] at hpass
    exact absurd hpass Bool.false_ne_true
  · intro hmemc
    rw [mem_searchCandidates_age] at hmemc
    have hpass := hmemc.2
    simp only [ageFilterPass, Bool.and_true] at hpass
    rwa [hcut] at hpass
  · intro hle
    rw [mem_searchCandidates_age]
    refine ⟨hmem, ?_⟩
    simp only [ageFilterPass, Bool.and_true]
    rwa [hcut]

/-- A one-profile store for the search witness; the profile's
`birth_date` is 1990-01-01. -/
def c9Db : DB :=
  { userauth := [], profile := [{ sid := 20, data := sampleProfile 0 }],
    like := [], matchColl := [], message := [], nextId := 21 }

/-- Witness for C9: on 2020-01-01 with `age_max = 30`, the profile born
1990-01-01 (exactly 30 years before) is in the candidate set. -/
theorem search_age_cutoff_witness :
    ({ sid := 20, data := sampleProfile 0 } : StoredProfile)
      ∈ searchCandidates c9Db (ageOnlyQuery none (some 30))
          { year := 2020, month := 1, day := 1 } :=
  (search_age_cutoff c9Db { year := 2020, month := 1, day := 1 } 30 (by decide)
      { sid := 20, data := sampleProfile 0 } (by decide)).1 (by decide)

/-! ## Profile upsert -/

/-- Every element of `setFirst p v l` is `v` or an element of `l`. -/
theorem mem_setFirst {α : Type} (p : α → Bool) (v : α) :
    ∀ l : List α, ∀ x ∈ setFirst p v l, x = v ∨ x ∈ l := by
  intro l
  induction l with
  | nil => intro x hx; cases hx
  | cons a l ih =>
    intro x hx
    unfold setFirst at hx
    by_cases hpa : p a
    · rw [if_pos hpa] at hx
      rcases List.mem_cons.1 hx with rfl | hx2
      · exact Or.inl rfl
      · exact Or.inr (List.mem_cons_of_mem a hx2)
    · rw [if_neg hpa] at hx
      rcases List.mem_cons.1 hx with rfl | hx2
      · exact Or.inr (List.mem_cons_self _ _)
      · rcases ih x hx2 with h | h
        · exact Or.inl h
        · exact Or.inr (List.mem_cons_of_mem a h)

/-- When some element satisfies `p`, the replacement `v` is present in
`setFirst p v l`. -/
theorem setFirst_mem_self {α : Type} (p : α → Bool) (v : α) :
    ∀ l : List α, (∃ x ∈ l, p x = true) → v ∈ setFirst p v l := by
  intro l
  induction l with
  | nil =>
    rintro ⟨x, hx, -⟩
    cases hx
  | cons a l ih =>
    rintro ⟨x, hx, hpx⟩
    unfold setFirst
    by_cases hpa : p a
    · rw [if_pos hpa]
      exact List.mem_cons_self v _
    · rw [if_neg hpa]
      rcases List.mem_cons.1 hx with rfl | hx2
      · exact absurd hpx hpa
      · exact List.mem_cons_of_mem a (ih ⟨x, hx2, hpx⟩)

/-- `setFirst` leaves the image under `f` unchanged when every element
it may replace has the same image as the replacement. -/
theorem map_setFirst_eq {α β : Type} (p : α → Bool) (v : α) (f : α → β) :
    ∀ l : List α, (∀ x ∈ l, p x = true → f x = f v) →
      (setFirst p v l).map f = l.map f := by
  intro l
  induction l with
  | nil => intro _; rfl
  | cons a l ih =>
    intro hf
    unfold setFirst
    by_cases hpa : p a
    · rw [if_pos hpa]
      simp only [List.map_cons]
      rw [hf a (List.mem_cons_self a l) hpa]
    · rw [if_neg hpa]
      simp only [List.map_cons]
      rw [ih (fun x hx hpx => hf x (List.mem_cons_of_mem a hx) hpx)]

/-- `setFirst` commutes away under a filter disjoint from both the
replaced elements and the replacement. -/
theorem filter_setFirst_eq {α : Type} (p q : α → Bool) (v : α) :
    ∀ l : List α, q v = false → (∀ x ∈ l, p x = true → q x = false) →
      (setFirst p v l).filter q = l.filter q := by
  intro l
  induction l with
  | nil => intro _ _; rfl
  | cons a l ih =>
    intro hqv himp
    unfold setFirst
    by_cases hpa : p a
    · rw [if_pos hpa,
        List.filter_cons_of_neg (by simp [hqv]),
        List.filter_cons_of_neg (by simp [himp a (List.mem_cons_self a l) hpa])]
    · rw [if_neg hpa]
      have ih2 := ih hqv (fun x hx hpx => himp x (List.mem_cons_of_mem a hx) hpx)
      by_cases hqa : q a
      · rw [List.filter_cons_of_pos hqa, List.filter_cons_of_pos hqa, ih2]
      · rw [List.filter_cons_of_neg hqa, List.filter_cons_of_neg hqa, ih2]

/-- C10: the profile upsert writes the caller's own identity id.  For a
paid caller, every document of the new profile collection either already
existed or carries `userauth_id` equal to the caller's id; the document
written for the caller is exactly the request body with its
`userauth_id` field overwritten by the caller's id (so a body naming a
different identity is ignored); profile documents of every other
identity are exactly those of the pre-state, so a caller can never
create or overwrite another identity's profile; and the
at-most-one-profile-per-identity invariant (distinct `userauth_id`s) is
preserved.  The `Nodup` hypotheses are Mongo `_id` uniqueness and the
invariant in the pre-state. -/
theorem profile_upsert_owner (db : DB) (u : Userauth) (pr : Profile)
    (hpaid : u.paid = true)
    (hsid : (db.profile.map (fun p => p.sid)).Nodup)
    (hinv : (db.profile.map (fun p => p.data.userauth_id)).Nodup) :
    (∀ r ∈ (create_or_update_profile db u pr).1.profile,
        r ∈ db.profile ∨ r.data.userauth_id = u.id)
  ∧ (∃ r ∈ (create_or_update_profile db u pr).1.profile,
        r.data = { pr with userauth_id := u.id })
  ∧ (∀ v, v ≠ u.id →
        (create_or_update_profile db u pr).1.profile.filter
            (fun p => p.data.userauth_id == v)
          = db.profile.filter (fun p => p.data.userauth_id == v))
  ∧ ((create_or_update_profile db u pr).1.profile.map
        (fun p => p.data.userauth_id)).Nodup := by
  have hnotfalse : ¬(u.paid = false) := by simp [hpaid]
  cases hfind : db.profile.find? (fun e => e.data.userauth_id == u.id) with
  | some e =>
    have he_mem : e ∈ db.profile := List.mem_of_find?_eq_some hfind
    have he_pe := List.find?_some hfind
    have he_uid : e.data.userauth_id = u.id := by simpa using he_pe
    have hinj : ∀ x ∈ db.profile, (x.sid == e.sid) = true → x = e := by
      intro x hx hbeq
      exact List.inj_on_of_nodup_map hsid hx he_mem (by simpa using hbeq)
    have hbranch : (create_or_update_profile db u pr).1.profile
        = setFirst (fun x => x.sid == e.sid)
            { sid := e.sid, data := { pr with userauth_id := u.id } } db.profile := by
      unfold create_or_update_profile
      rw [if_neg hnotfalse, hfind]
    refine ⟨?_, ?_, ?_, ?_⟩
    · intro r hr
      rw [hbranch] at hr
      rcases mem_setFirst _ _ db.profile r hr with rfl | h
      · exact Or.inr rfl
      · exact Or.inl h
    · rw [hbranch]
      exact ⟨{ sid := e.sid, data := { pr with userauth_id := u.id } },
        setFirst_mem_self _ _ db.profile ⟨e, he_mem, by simp⟩, rfl⟩
    · intro v hv
      rw [hbranch]
      apply filter_setFirst_eq _ _ _ db.profile
      · simp only [beq_eq_false_iff_ne]
        exact fun hh => hv hh.symm
      · intro x hx hbeq
        rw [hinj x hx hbeq, he_uid]
        simp only [beq_eq_false_iff_ne]
        exact fun hh => hv hh.symm
    · rw [hbranch, map_setFirst_eq _ _ _ db.profile ?hf]
      · exact hinv
      case hf =>
        intro x hx hbeq
        rw [hinj x hx hbeq]
        simp [he_uid]
  | none =>
    have hnone := List.find?_eq_none.1 hfind
    have hbranch : (create_or_update_profile db u pr).1.profile
        = db.profile ++ [{ sid := db.nextId, data := { pr with userauth_id := u.id } }] := by
      unfold create_or_update_profile
      rw [if_neg hnotfalse, hfind]
    refine ⟨?_, ?_, ?_, ?_⟩
    · intro r hr
      rw [hbranch] at hr
      rcases List.mem_append.1 hr with h | h
      · exact Or.inl h
      · rw [List.mem_singleton] at h
        subst h
        exact Or.inr rfl
    · rw [hbranch]
      exact ⟨{ sid := db.nextId, data := { pr with userauth_id := u.id } },
        List.mem_append_right _ (List.mem_singleton_self _), rfl⟩
    · intro v hv
      rw [hbranch, List.filter_append]
      have hq : (({ sid := db.nextId, data := { pr with userauth_id := u.id } }
          : StoredProfile).data.userauth_id == v) = false := by
        simp only [beq_eq_false_iff_ne]
        exact fun hh => hv hh.symm
      rw [List.filter_cons_of_neg (by simp [hq]), List.filter_nil, List.append_nil]
    · rw [hbranch, List.map_append]
      simp only [List.map_cons, List.map_nil]
      refine hinv.append (List.nodup_singleton _) ?_
      rw [List.disjoint_singleton]
      intro hmem2
      rcases List.mem_map.1 hmem2 with ⟨x, hx, hfx⟩
      have hxu : x.data.userauth_id = u.id := hfx
      exact hnone x hx (by simp [hxu])

/-- A paid caller whose id 3 owns no profile of the populated store. -/
def c10Requester : Userauth :=
  { id := 3, email := "payer@example.com", paid := true, verified := false, token := "tokD" }

/-- Witness for C10: identity 3 upserts a body whose `userauth_id` field
names identity 0; the one-profile-per-identity invariant still holds
afterwards. -/
theorem profile_upsert_owner_witness :
    ((create_or_update_profile c7Db c10Requester (sampleProfile 0)).1.profile.map
        (fun p => p.data.userauth_id)).Nodup :=
  (profile_upsert_owner c7Db c10Requester (sampleProfile 0) rfl (by decide) (by decide)).2.2.2

/-! ## The mutual-match invariant (sequential like calls) -/

/-- The social-graph invariant maintained by sequential `like_user`
calls: every unordered pair of ids carries at most one match document,
and carries one exactly when both like directions are present. -/
def MatchInv (db : DB) : Prop :=
  ∀ x y : OId, matchCount db x y ≤ 1
    ∧ (0 < matchCount db x y ↔ (hasLike db x y = true ∧ hasLike db y x = true))

/-- A store with no likes and no matches satisfies the invariant. -/
theorem matchInv_empty (db : DB) (hl : db.like = []) (hm : db.matchColl = []) :
    MatchInv db := by
  intro x y
  constructor
  · simp [matchCount, hm]
  · simp [matchCount, hasLike, hm, hl]

/-- The match-existence predicate is symmetric in the two ids. -/
theorem pairMatches_symm (m : MatchEdge) (x y : OId) :
    pairMatches m x y = pairMatches m y x := by
  simp [pairMatches, Bool.or_comm]

/-- `matchCount` is symmetric in the two ids. -/
theorem matchCount_symm (db : DB) (x y : OId) :
    matchCount db x y = matchCount db y x := by
  unfold matchCount
  congr 1
  apply List.filter_congr
  intro m _
  exact pairMatches_symm m x y

/-- The pair has a match document exactly when some stored match edge
joins it. -/
theorem matchCount_pos_iff (db : DB) (x y : OId) :
    0 < matchCount db x y ↔ ∃ m ∈ db.matchColl, pairMatches m x y = true := by
  unfold matchCount
  rw [List.length_pos_iff_exists_mem]
  constructor
  · rintro ⟨m, hm⟩
    have h2 := List.mem_filter.1 hm
    exact ⟨m, h2.1, h2.2⟩
  · rintro ⟨m, hm, hp⟩
    exact ⟨m, List.mem_filter.2 ⟨hm, hp⟩⟩

/-- When no stored match edge joins the pair, its count is zero. -/
theorem matchCount_eq_zero_of_any_false (db : DB) (x y : OId)
    (h : db.matchColl.any (fun m => pairMatches m x y) = false) :
    matchCount db x y = 0 := by
  unfold matchCount
  rw [List.length_eq_zero, List.filter_eq_nil_iff]
  intro m hm
  have h2 := List.any_eq_false.1 h m hm
  simpa using h2

/-- Effect of the like insertion on `hasLike`: the old edges plus the
one fresh direction. -/
theorem hasLike_likeInsert (db : DB) (u : Userauth) (t x y : OId) :
    hasLike (likeInsertDB db u t) x y
      = (hasLike db x y || (u.id == x && t == y)) := by
  simp [likeInsertDB, hasLike]

/-- The like insertion does not add a reverse edge when the target is
not the requester. -/
theorem hasLike_likeInsert_rev (db : DB) (u : Userauth) (t : OId) (h : u.id ≠ t) :
    hasLike (likeInsertDB db u t) t u.id = hasLike db t u.id := by
  rw [hasLike_likeInsert]
  have hb : (u.id == t) = false := by simp [h]
  simp [hb]

/-- The like insertion leaves the match collection untouched. -/
theorem matchCount_likeInsert (db : DB) (u : Userauth) (t x y : OId) :
    matchCount (likeInsertDB db u t) x y = matchCount db x y := rfl

/-- Appending one element to a filtered-and-counted list adds one to the
count exactly when the element passes the filter. -/
theorem length_filter_append_one {α : Type} (q : α → Bool) (l : List α) (e : α) :
    ((l ++ [e]).filter q).length
      = (l.filter q).length + (if q e = true then 1 else 0) := by
  by_cases hq : q e = true
  · simp [List.filter_append, List.filter_cons, hq]
  · simp [List.filter_append, List.filter_cons, hq]

/-- Appending a match edge changes the counts of exactly its own pair. -/
theorem matchCount_matchAppend (d : DB) (m0 : MatchEdge) (x y : OId) :
    matchCount { d with matchColl := d.matchColl ++ [m0], nextId := d.nextId + 1 } x y
      = matchCount d x y + (if pairMatches m0 x y = true then 1 else 0) :=
  length_filter_append_one _ _ _

/-- Appending a match edge leaves `hasLike` untouched. -/
theorem hasLike_matchAppend (d : DB) (m0 : MatchEdge) (x y : OId) :
    hasLike { d with matchColl := d.matchColl ++ [m0], nextId := d.nextId + 1 } x y
      = hasLike d x y := rfl

/-- A non-self `like_user` call is the mutual check on the state with
the fresh edge inserted. -/
theorem like_user_eq (db : DB) (u : Userauth) (t : OId) (h : u.id ≠ t) :
    like_user db u t = likeMutualCheck (likeInsertDB db u t) u t := by
  unfold like_user
  rw [if_neg h]

/-- The two possible outcomes of the mutual-check phase on a state
`d`: either the store is returned unchanged — because no reverse edge
exists or a match document already joins the pair — or exactly one fresh
match document for the pair is appended, which happens precisely when
the reverse edge exists and no match for the pair does. -/
theorem likeMutualCheck_cases (d : DB) (u : Userauth) (t : OId) :
    ((likeMutualCheck d u t).1 = d
       ∧ (hasLike d t u.id = false ∨ 0 < matchCount d u.id t))
  ∨ ((likeMutualCheck d u t).1
        = { d with
            matchColl := d.matchColl ++ [{ id := d.nextId, userauth_a := u.id, userauth_b := t }],
            nextId := d.nextId + 1 }
       ∧ hasLike d t u.id = true ∧ matchCount d u.id t = 0) := by
  unfold likeMutualCheck
  cases hfind : d.like.find? (fun l => l.from_userauth_id == t && l.to_userauth_id == u.id) with
  | none =>
    left
    refine ⟨rfl, Or.inl ?_⟩
    exact (find?_none_iff_any_false _ _).1 hfind
  | some e =>
    have hmem := List.mem_of_find?_eq_some hfind
    have hpe := List.find?_some hfind
    have hrev : hasLike d t u.id = true := List.any_eq_true.2 ⟨e, hmem, hpe⟩
    cases hm : d.matchColl.find? (fun m =>
        (m.userauth_a == u.id && m.userauth_b == t) ||
        (m.userauth_a == t && m.userauth_b == u.id)) with
    | some m2 =>
      left
      refine ⟨rfl, Or.inr ?_⟩
      have hmm := List.mem_of_find?_eq_some hm
      have hpm := List.find?_some hm
      exact (matchCount_pos_iff d u.id t).2 ⟨m2, hmm, hpm⟩
    | none =>
      right
      refine ⟨rfl, hrev, ?_⟩
      apply matchCount_eq_zero_of_any_false
      exact (find?_none_iff_any_false _ _).1 hm

/-- One `like_user` call preserves the mutual-match invariant. -/
theorem like_user_preserves_matchInv (db : DB) (u : Userauth) (t : OId)
    (hInv : MatchInv db) : MatchInv (like_user db u t).1 := by
  by_cases hself : u.id = t
  · subst hself
    rw [like_user_self_eq]
    exact hInv
  rw [like_user_eq db u t hself]
  rcases likeMutualCheck_cases (likeInsertDB db u t) u t with
    ⟨hst, hside⟩ | ⟨hst, hmut, hzero⟩
  · rw [hst]
    rw [hasLike_likeInsert_rev db u t hself, matchCount_likeInsert db u t u.id t] at hside
    intro x y
    rw [matchCount_likeInsert db u t x y, hasLike_likeInsert db u t x y,
      hasLike_likeInsert db u t y x]
    refine ⟨(hInv x y).1, ?_, ?_⟩
    · intro hpos
      have hl := (hInv x y).2.1 hpos
      constructor
      · rw [hl.1]; simp
      · rw [hl.2]; simp
    · rintro ⟨h1, h2⟩
      rw [Bool.or_eq_true] at h1 h2
      rcases h1 with h1 | h1
      · rcases h2 with h2 | h2
        · exact (hInv x y).2.2 ⟨h1, h2⟩
        · have hy : u.id = y ∧ t = x := by simpa using h2
          rcases hside with hnorev | hposm
          · rw [← hy.2, ← hy.1] at h1
            rw [h1] at hnorev
            simp at hnorev
          · rw [← hy.1, ← hy.2]
            rw [matchCount_symm]
            exact hposm
      · have hx : u.id = x ∧ t = y := by simpa using h1
        rcases h2 with h2 | h2
        · rcases hside with hnorev | hposm
          · rw [← hx.1, ← hx.2] at h2
            rw [h2] at hnorev
            simp at hnorev
          · rw [← hx.1, ← hx.2]
            exact hposm
        · have hy : u.id = y ∧ t = x := by simpa using h2
          exact absurd (hx.1.trans hy.2.symm) hself
  · rw [hst]
    rw [hasLike_likeInsert_rev db u t hself] at hmut
    rw [matchCount_likeInsert db u t u.id t] at hzero
    intro x y
    rw [matchCount_matchAppend, matchCount_likeInsert db u t x y,
      hasLike_matchAppend, hasLike_matchAppend,
      hasLike_likeInsert db u t x y, hasLike_likeInsert db u t y x]
    have hpm : pairMatches
        { id := (likeInsertDB db u t).nextId, userauth_a := u.id, userauth_b := t } x y
        = ((u.id == x && t == y) || (u.id == y && t == x)) := rfl
    rw [hpm]
    by_cases hc1 : u.id = x ∧ t = y
    · obtain ⟨hcx, hcy⟩ := hc1
      subst hcx
      subst hcy
      rw [if_pos (show ((u.id == u.id && t == t) || (u.id == t && t == u.id)) = true by simp)]
      rw [hzero]
      refine ⟨by omega, ?_, ?_⟩
      · intro _
        constructor
        · simp
        · rw [hmut]; simp
      · intro _
        omega
    · by_cases hc2 : u.id = y ∧ t = x
      · obtain ⟨hcy, hcx⟩ := hc2
        subst hcy
        subst hcx
        rw [if_pos (show ((u.id == t && t == u.id) || (u.id == u.id && t == t)) = true by simp)]
        rw [matchCount_symm db t u.id, hzero]
        refine ⟨by omega, ?_, ?_⟩
        · intro _
          constructor
          · rw [hmut]; simp
          · simp
        · intro _
          omega
      · have hite : ((u.id == x && t == y) || (u.id == y && t == x)) = false := by
          cases hb : ((u.id == x && t == y) || (u.id == y && t == x)) with
          | false => rfl
          | true =>
            rw [Bool.or_eq_true] at hb
            rcases hb with hb | hb
            · exact absurd (by simpa using hb) hc1
            · exact absurd (by simpa using hb) hc2
        have hb1 : (u.id == x && t == y) = false := by
          cases hb : (u.id == x && t == y) with
          | false => rfl
          | true => rw [hb] at hite; simp at hite
        have hb2 : (u.id == y && t == x) = false := by
          cases hb : (u.id == y && t == x) with
          | false => rfl
          | true => rw [hb] at hite; simp at hite
        rw [hite, if_neg Bool.false_ne_true, hb1, hb2]
        simp only [Bool.or_false, Nat.add_zero]
        exact hInv x y

/-- Any sequence of `like_user` calls preserves the invariant. -/
theorem runLikes_preserves_matchInv (ops : List (Userauth × OId)) :
    ∀ db : DB, MatchInv db → MatchInv (runLikes db ops) := by
  induction ops with
  | nil => intro db h; exact h
  | cons op ops ih =>
    intro db h
    exact ih _ (like_user_preserves_matchInv db op.1 op.2 h)

/-- C2: from any store that has no Like edges and no Match edges, after
any sequence of `like_user` calls executed one at a time, whenever both
Like directions between `x` and `y` exist exactly one match document
joins the pair (in either orientation); and a single `like_user` step
changes a pair's match count only when the pair is the one being liked,
the reverse Like edge already exists before the call, and the pair has
no match document yet — in which case exactly one is created. -/
theorem mutual_like_unique_match (db0 : DB) (ops : List (Userauth × OId))
    (hl : db0.like = []) (hm : db0.matchColl = []) (x y : OId) :
    (hasLike (runLikes db0 ops) x y = true →
     hasLike (runLikes db0 ops) y x = true →
       matchCount (runLikes db0 ops) x y = 1)
  ∧ (∀ (db : DB) (u : Userauth) (t : OId),
       matchCount (like_user db u t).1 x y ≠ matchCount db x y →
       (((x = u.id ∧ y = t) ∨ (x = t ∧ y = u.id))
         ∧ hasLike db t u.id = true
         ∧ matchCount db x y = 0
         ∧ matchCount (like_user db u t).1 x y = 1)) := by
  constructor
  · intro h1 h2
    have hInv := runLikes_preserves_matchInv ops db0 (matchInv_empty db0 hl hm)
    have hle := (hInv x y).1
    have hpos := (hInv x y).2.2 ⟨h1, h2⟩
    omega
  · intro db u t hne
    by_cases hself : u.id = t
    · subst hself
      rw [like_user_self_eq] at hne
      exact absurd rfl hne
    rw [like_user_eq db u t hself] at hne ⊢
    rcases likeMutualCheck_cases (likeInsertDB db u t) u t with
      ⟨hst, hside⟩ | ⟨hst, hmut, hzero⟩
    · rw [hst, matchCount_likeInsert db u t x y] at hne
      exact absurd rfl hne
    · rw [hasLike_likeInsert_rev db u t hself] at hmut
      rw [matchCount_likeInsert db u t u.id t] at hzero
      rw [hst, matchCount_matchAppend, matchCount_likeInsert db u t x y] at hne ⊢
      have hpm : pairMatches
          { id := (likeInsertDB db u t).nextId, userauth_a := u.id, userauth_b := t } x y
          = ((u.id == x && t == y) || (u.id == y && t == x)) := rfl
      rw [hpm] at hne ⊢
      have hcond : ((u.id == x && t == y) || (u.id == y && t == x)) = true := by
        cases hb : ((u.id == x && t == y) || (u.id == y && t == x)) with
        | true => rfl
        | false =>
          rw [hb, if_neg Bool.false_ne_true, Nat.add_zero] at hne
          exact absurd rfl hne
      have hpair : (u.id = x ∧ t = y) ∨ (u.id = y ∧ t = x) := by
        rw [Bool.or_eq_true] at hcond
        rcases hcond with hb | hb
        · exact Or.inl (by simpa using hb)
        · exact Or.inr (by simpa using hb)
      have hcount0 : matchCount db x y = 0 := by
        rcases hpair with ⟨ha, hb⟩ | ⟨ha, hb⟩
        · rw [← ha, ← hb]
          exact hzero
        · rw [← hb, ← ha]
          rw [matchCount_symm]
          exact hzero
      refine ⟨?_, hmut, hcount0, ?_⟩
      · rcases hpair with ⟨ha, hb⟩ | ⟨ha, hb⟩
        · exact Or.inl ⟨ha.symm, hb.symm⟩
        · exact Or.inr ⟨hb.symm, ha.symm⟩
      · rw [hcond, if_pos rfl, hcount0]

/-- The two paid identities of the C2 witness store. -/
def c2UserA : Userauth :=
  { id := 0, email := "a@example.com", paid := true, verified := false, token := "tA" }

/-- The second identity of the C2 witness store. -/
def c2UserB : Userauth :=
  { id := 1, email := "b@example.com", paid := true, verified := false, token := "tB" }

/-- A store with two identities and empty like/match collections. -/
def c2Db : DB :=
  { userauth := [c2UserA, c2UserB], profile := [], like := [],
    matchColl := [], message := [], nextId := 2 }

/-- Witness for C2: after A likes B and B likes A, exactly one match
document joins the pair. -/
theorem mutual_like_unique_match_witness :
    matchCount (runLikes c2Db [(c2UserA, 1), (c2UserB, 0)]) 0 1 = 1 :=
  (mutual_like_unique_match c2Db [(c2UserA, 1), (c2UserB, 0)] rfl rfl 0 1).1
    (by decide) (by decide)
